import Mathlib

/-!
Verification of the asynchronous deepfake-analysis pipeline.

Shallow embedding of the in-memory job store (`server/storage.ts`,
class `MemStorage`) and the orchestration logic (`server/routes.ts`,
`processMedia` and the upload route's model-id extraction).

Modelling conventions:
* A JavaScript `Map` is an insertion-ordered association list
  `List (Nat × α)`; `Map.get` is `mapGet`, `Map.set` is `mapSet`
  (replace in place when the key exists, append otherwise),
  `Map.values()` is `mapValues`.
* `Date` values are epoch milliseconds (`Nat`); `toISOString` is an
  injective function of that value, so timestamps are compared as `Nat`.
* A JavaScript object carries an identity; where the code relies on it
  (the `new Set(...)` over manipulation-type entries), the embedded
  entry carries an `oid : Nat` identity tag and `Set` deduplication is
  deduplication by `oid`.
* JavaScript truthiness of strings (`s || d` treats `""` as falsy) is
  `jsStringOr` / `jsOrUndefined`.
* `Math.round (p / q)` on integer `p`, positive `q` is the
  round-half-up `Int.fdiv (2*p + q) (2*q)` (`mathRoundDiv`).
* Asynchronous functions are state transformers on `MemStorage`; a
  thrown JavaScript exception is an `Option String` error component
  that the caller's `catch` inspects.
-/

/-- User record (the `users` table comes from the shared schema module,
which is outside `src/`; only its existence matters here). -/
structure User where
  id : Nat
  username : String
  password : String
deriving DecidableEq

/-- A media-analysis job (`MediaUpload` in `@shared/schema`), as stored
by `MemStorage.mediaUploads`. -/
structure MediaUpload where
  id : Nat
  filename : String
  filesize : Nat
  filetype : String
  userId : Option Nat
  uploadedAt : Nat
  status : String
deriving DecidableEq

/-- Insert shape for `createMediaUpload`. -/
structure InsertMediaUpload where
  filename : String
  filesize : Nat
  filetype : String
  userId : Option Nat
deriving DecidableEq

/-- A detection model of the registry (`DetectionModel`). The source
field `type` holds `"image"`, `"video"` or `"both"`. -/
structure DetectionModel where
  id : Nat
  name : String
  description : String
  type : String
  isActive : Bool
deriving DecidableEq

/-- Insert shape for `createDetectionModel`. -/
structure InsertDetectionModel where
  name : String
  description : String
  type : String
  isActive : Bool
deriving DecidableEq

/-- One manipulation-type entry `{type, confidence}` inside
`resultDetails.manipulationTypes`. `oid` is the JavaScript object
identity of the entry (distinct stored entries are distinct objects). -/
structure ManipEntry where
  oid : Nat
  type : String
  confidence : Int
deriving DecidableEq

/-- One anomaly entry `{type, description, severity}`. -/
structure Anomaly where
  type : String
  description : String
  severity : String
deriving DecidableEq

/-- The `technicalAnalysis` object of a result's details. -/
structure TechnicalAnalysis where
  compressionLevel : String
  compressionSuspicious : Bool
  encodingFormat : String
  noisePattern : String
  noisePatternSuspicious : Bool
  metadataConsistency : String
  metadataModified : Bool
deriving DecidableEq

/-- The `metadata` object of a result's details. -/
structure ResultMetadata where
  duration : Option String
  resolution : Option String
deriving DecidableEq

/-- The loosely-typed `resultDetails` JSON payload of an analysis
result. Fields the aggregator guards with `|| fallback` or `?.` are
`Option`s; `detailsData` is an uninterpreted key/value payload. -/
structure ResultDetails where
  anomalies : Option (List Anomaly)
  manipulationTypes : Option (List ManipEntry)
  detailsData : Option (List (String × String))
  metadata : Option ResultMetadata
  technicalAnalysis : Option TechnicalAnalysis
deriving DecidableEq

/-- A stored analysis result (`AnalysisResult`). -/
structure AnalysisResult where
  id : Nat
  mediaId : Nat
  modelId : Nat
  confidenceScore : Int
  resultDetails : ResultDetails
  analyzedAt : Nat
deriving DecidableEq

/-- Insert shape for `createAnalysisResult`. -/
structure InsertAnalysisResult where
  mediaId : Nat
  modelId : Nat
  confidenceScore : Int
  resultDetails : ResultDetails
deriving DecidableEq

/-- One element of the response's `modelResults`. -/
structure ModelResult where
  modelId : Nat
  modelName : String
  modelDescription : String
  confidenceScore : Int
  anomalies : List Anomaly
  detailsData : List (String × String)
deriving DecidableEq

/-- The `metadata.fileInfo` object of the aggregated response. -/
structure FileInfo where
  filename : String
  filesize : Nat
  filetype : String
  duration : Option String
  resolution : Option String
deriving DecidableEq

/-- The `metadata` object of the aggregated response. -/
structure ResponseMetadata where
  fileInfo : FileInfo
  technicalAnalysis : TechnicalAnalysis
deriving DecidableEq

/-- The aggregated `AnalysisResponse` built by `getCompleteAnalysis`. -/
structure AnalysisResponse where
  mediaId : Nat
  filename : String
  filetype : String
  status : String
  overallConfidence : Int
  isDeepfake : Bool
  detectionTime : Nat
  manipulationTypes : List ManipEntry
  modelResults : List ModelResult
  metadata : ResponseMetadata
deriving DecidableEq

/-- The `MemStorage` state: four insertion-ordered maps plus the id
counters. -/
structure MemStorage where
  users : List (Nat × User)
  mediaUploads : List (Nat × MediaUpload)
  detectionModels : List (Nat × DetectionModel)
  analysisResults : List (Nat × AnalysisResult)
  currentUserId : Nat
  currentMediaId : Nat
  currentModelId : Nat
  currentAnalysisId : Nat
deriving DecidableEq

/-- `Map.get`: value at the first (unique) matching key. -/
def mapGet {α : Type} : List (Nat × α) → Nat → Option α
  | [], _ => none
  | p :: rest, k => if p.1 = k then some p.2 else mapGet rest k

/-- `Map.set`: replace in place when the key exists, append otherwise. -/
def mapSet {α : Type} : List (Nat × α) → Nat → α → List (Nat × α)
  | [], k, v => [(k, v)]
  | p :: rest, k, v => if p.1 = k then (k, v) :: rest else p :: mapSet rest k v

/-- `Array.from(map.values())`: values in insertion order. -/
def mapValues {α : Type} (m : List (Nat × α)) : List α :=
  m.map Prod.snd

/-- `MemStorage.getMediaUpload`. -/
def getMediaUpload (s : MemStorage) (id : Nat) : Option MediaUpload :=
  mapGet s.mediaUploads id

/-- `MemStorage.createMediaUpload` (assigns the next media id, stamps
`uploadedAt` with the current time `now`, sets status `"pending"`). -/
def createMediaUpload (s : MemStorage) (u : InsertMediaUpload) (now : Nat) :
    MediaUpload × MemStorage :=
  let id := s.currentMediaId
  let mu : MediaUpload :=
    { id := id, filename := u.filename, filesize := u.filesize,
      filetype := u.filetype, userId := u.userId, uploadedAt := now,
      status := "pending" }
  (mu, { s with mediaUploads := mapSet s.mediaUploads id mu,
                currentMediaId := id + 1 })

/-- `MemStorage.updateMediaStatus`: look the job up; if missing return
`undefined`, otherwise overwrite its `status` field with the given
string and store the copy back under the same id. -/
def updateMediaStatus (s : MemStorage) (id : Nat) (status : String) :
    Option MediaUpload × MemStorage :=
  match getMediaUpload s id with
  | none => (none, s)
  | some mu =>
    let updated := { mu with status := status }
    (some updated, { s with mediaUploads := mapSet s.mediaUploads id updated })

/-- `MemStorage.getDetectionModels`. -/
def getDetectionModels (s : MemStorage) : List DetectionModel :=
  mapValues s.detectionModels

/-- `MemStorage.getDetectionModel`. -/
def getDetectionModel (s : MemStorage) (id : Nat) : Option DetectionModel :=
  mapGet s.detectionModels id

/-- `MemStorage.createDetectionModel`. -/
def createDetectionModel (s : MemStorage) (m : InsertDetectionModel) :
    DetectionModel × MemStorage :=
  let id := s.currentModelId
  let dm : DetectionModel :=
    { id := id, name := m.name, description := m.description,
      type := m.type, isActive := m.isActive }
  (dm, { s with detectionModels := mapSet s.detectionModels id dm,
                currentModelId := id + 1 })

/-- `MemStorage.createAnalysisResult`: assign the next analysis id,
stamp `analyzedAt` with the current time `now`, store. There is no
check of any kind against an existing `(mediaId, modelId)` result. -/
def createAnalysisResult (s : MemStorage) (r : InsertAnalysisResult) (now : Nat) :
    AnalysisResult × MemStorage :=
  let id := s.currentAnalysisId
  let ar : AnalysisResult :=
    { id := id, mediaId := r.mediaId, modelId := r.modelId,
      confidenceScore := r.confidenceScore, resultDetails := r.resultDetails,
      analyzedAt := now }
  (ar, { s with analysisResults := mapSet s.analysisResults id ar,
                currentAnalysisId := id + 1 })

/-- `MemStorage.getAnalysisResultsByMediaId`: values in insertion
order, filtered by `mediaId`. -/
def getAnalysisResultsByMediaId (s : MemStorage) (mediaId : Nat) :
    List AnalysisResult :=
  (mapValues s.analysisResults).filter fun r => r.mediaId == mediaId

/-- JavaScript `v || d` for an optional string (`""` is falsy). -/
def jsStringOr (v : Option String) (d : String) : String :=
  match v with
  | some str => if str = "" then d else str
  | none => d

/-- JavaScript `(v as string) || undefined` (`""` becomes `undefined`). -/
def jsOrUndefined (v : Option String) : Option String :=
  match v with
  | some str => if str = "" then none else some str
  | none => none

/-- `Math.round (p / q)` for integer `p` and positive integer `q`:
round half toward positive infinity, i.e. the floor of `p / q + 1/2`. -/
def mathRoundDiv (p q : Int) : Int :=
  Int.fdiv (2 * p + q) (2 * q)

/-- Sum of the confidence scores: the source's
`reduce((sum, result) => sum + result.confidenceScore, 0)`. -/
def jobResultsSum (results : List AnalysisResult) : Int :=
  results.foldl (fun sum r => sum + r.confidenceScore) 0

/-- `Math.round(reduce(...) / analysisResults.length)`. -/
def overallConfidenceOf (results : List AnalysisResult) : Int :=
  mathRoundDiv (jobResultsSum results) (results.length : Int)

/-- All manipulation-type entries of a job's results:
`flatMap(result => result.resultDetails.manipulationTypes || [])`. -/
def jobManipCandidates (results : List AnalysisResult) : List ManipEntry :=
  results.flatMap fun r => r.resultDetails.manipulationTypes.getD []

/-- `Array.from(new Set(entries))`: a JavaScript `Set` compares objects
by identity, so this keeps the first occurrence of every object
identity and drops later occurrences of the same object. -/
def dedupByOid : List ManipEntry → List Nat → List ManipEntry
  | [], _ => []
  | x :: xs, seen =>
    if x.oid ∈ seen then dedupByOid xs seen
    else x :: dedupByOid xs (x.oid :: seen)

/-- Comparator of `.sort((a, b) => b.confidence - a.confidence)`:
`a` may precede `b` when `b.confidence ≤ a.confidence`. -/
def confDescRel (a b : ManipEntry) : Prop :=
  b.confidence ≤ a.confidence

instance : DecidableRel confDescRel :=
  fun a b => inferInstanceAs (Decidable (b.confidence ≤ a.confidence))

instance : IsTotal ManipEntry confDescRel :=
  ⟨fun a b => le_total b.confidence a.confidence⟩

instance : IsTrans ManipEntry confDescRel :=
  ⟨fun _ _ _ hab hbc => le_trans hbc hab⟩

/-- The JavaScript stable sort with the descending-confidence
comparator (stable sorting makes the output independent of the sorting
algorithm, so insertion sort is an exact model). -/
def sortDescByConfidence (l : List ManipEntry) : List ManipEntry :=
  List.insertionSort confDescRel l

/-- The aggregator's `manipulationTypes` value:
`Array.from(new Set(flatMap(...))).sort((a, b) => b.confidence - a.confidence)`. -/
def manipulationTypesOf (results : List AnalysisResult) : List ManipEntry :=
  sortDescByConfidence (dedupByOid (jobManipCandidates results) [])

/-- The fallback `technicalAnalysis` object of the aggregator. -/
def defaultTechnicalAnalysis : TechnicalAnalysis :=
  { compressionLevel := "Medium", compressionSuspicious := false,
    encodingFormat := "Unknown", noisePattern := "Regular",
    noisePatternSuspicious := false, metadataConsistency := "Consistent",
    metadataModified := false }

/-- One element of `modelResults`: model lookup with the
`model?.name || "Unknown Model"` / `model?.description || ""` fallbacks
and the `|| []` / `|| {}` guards on the details. -/
def toModelResult (s : MemStorage) (r : AnalysisResult) : ModelResult :=
  let model := getDetectionModel s r.modelId
  { modelId := r.modelId
    modelName := jsStringOr (model.map fun m => m.name) "Unknown Model"
    modelDescription := jsStringOr (model.map fun m => m.description) ""
    confidenceScore := r.confidenceScore
    anomalies := r.resultDetails.anomalies.getD []
    detailsData := r.resultDetails.detailsData.getD [] }

/-- The response object literal returned by `getCompleteAnalysis` when
the job exists and has results; `first` is `analysisResults[0]`, the
first stored result for the job in map-insertion order. -/
def buildResponse (s : MemStorage) (mediaId : Nat) (mu : MediaUpload)
    (first : AnalysisResult) (results : List AnalysisResult) : AnalysisResponse :=
  { mediaId := mediaId
    filename := mu.filename
    filetype := mu.filetype
    status := mu.status
    overallConfidence := overallConfidenceOf results
    isDeepfake := decide (overallConfidenceOf results > 60)
    detectionTime := first.analyzedAt
    manipulationTypes := manipulationTypesOf results
    modelResults := results.map (toModelResult s)
    metadata :=
      { fileInfo :=
          { filename := mu.filename
            filesize := mu.filesize
            filetype := mu.filetype
            duration := jsOrUndefined (first.resultDetails.metadata.bind fun m => m.duration)
            resolution := jsOrUndefined (first.resultDetails.metadata.bind fun m => m.resolution) }
        technicalAnalysis := first.resultDetails.technicalAnalysis.getD defaultTechnicalAnalysis } }

/-- `MemStorage.getCompleteAnalysis`: `undefined` when the job is
missing or has zero stored results, otherwise the aggregated report. -/
def getCompleteAnalysis (s : MemStorage) (mediaId : Nat) : Option AnalysisResponse :=
  match getMediaUpload s mediaId with
  | none => none
  | some mu =>
    match getAnalysisResultsByMediaId s mediaId with
    | [] => none
    | first :: rest => some (buildResponse s mediaId mu first (first :: rest))

/-- Media-type compatibility test of `processMedia`:
`model.type === "both" || (isVideo ? model.type === "video" : model.type === "image")`. -/
def modelCompat (m : DetectionModel) (isVideo : Bool) : Bool :=
  m.type == "both" || (if isVideo then m.type == "video" else m.type == "image")

/-- The model-selection expression of `processMedia` (routes.ts
lines 73–82): an explicit non-empty id list filters by membership and
compatibility (ignoring `isActive`); otherwise active compatible
models are used. -/
def selectModelsToUse (availableModels : List DetectionModel)
    (selectedModels : List Nat) (isVideo : Bool) : List DetectionModel :=
  if 0 < selectedModels.length then
    availableModels.filter fun m =>
      selectedModels.contains m.id && modelCompat m isVideo
  else
    availableModels.filter fun m => m.isActive && modelCompat m isVideo

/-- JavaScript `s.startsWith(p)`, evaluated on the character-list
representation of the strings (so concrete stores reduce by `decide`). -/
def strStartsWith (s p : String) : Bool :=
  p.data.isPrefixOf s.data

/-- The per-model loop of `processMedia`. The loop body that fabricates
the score and details is the injected analysis producer of the spec's
§4.3; it is passed as `producer`, whose `Except.error` models a thrown
JavaScript exception. Each successful iteration persists its result
via `createAnalysisResult` before the next model runs; a throw stops
the loop and propagates, leaving already persisted results in place. -/
def runModels (s : MemStorage) (mediaId : Nat) (models : List DetectionModel)
    (producer : DetectionModel → Except String (Int × ResultDetails)) (now : Nat) :
    MemStorage × Option String :=
  match models with
  | [] => (s, none)
  | m :: rest =>
    match producer m with
    | Except.error e => (s, some e)
    | Except.ok v =>
      let created := createAnalysisResult s
        { mediaId := mediaId, modelId := m.id,
          confidenceScore := v.1, resultDetails := v.2 } now
      runModels created.2 mediaId rest producer now

/-- `processMedia` (routes.ts lines 56–207): set status `"processing"`,
re-read the job (returning silently when it vanished), select the
models, run them in order persisting each result, and on full success
set status `"completed"`. The error component is the exception that
escapes to the caller. -/
def processMedia (s : MemStorage) (mediaId : Nat) (selectedModels : List Nat)
    (producer : DetectionModel → Except String (Int × ResultDetails)) (now : Nat) :
    MemStorage × Option String :=
  let s1 := (updateMediaStatus s mediaId "processing").2
  match getMediaUpload s1 mediaId with
  | none => (s1, none)
  | some mediaUpload =>
    let isVideo := strStartsWith mediaUpload.filetype "video/"
    let modelsToUse := selectModelsToUse (getDetectionModels s1) selectedModels isVideo
    match runModels s1 mediaId modelsToUse producer now with
    | (s2, none) => ((updateMediaStatus s2 mediaId "completed").2, none)
    | (s2, some e) => (s2, some e)

/-- The dispatch in `registerRoutes`:
`processMedia(...).catch(err => storage.updateMediaStatus(id, "failed"))`. -/
def dispatchProcessMedia (s : MemStorage) (mediaId : Nat) (selectedModels : List Nat)
    (producer : DetectionModel → Except String (Int × ResultDetails)) (now : Nat) :
    MemStorage :=
  match processMedia s mediaId selectedModels producer now with
  | (s2, none) => s2
  | (s2, some _) => (updateMediaStatus s2 mediaId "failed").2

/-- The `selectedModels` extraction of the upload route (routes.ts
lines 247–266). `payload` abstracts `req.body.selectedModels` together
with the outcome of `JSON.parse(...).map(parseInt-normalisation)`:
`none` when the field is absent, `some (Except.ok ids)` when parsing
succeeds, `some (Except.error e)` when it throws. An absent field
selects every registered model id; a parse failure falls back to the
hardcoded list `[1, 2]`. -/
def extractSelectedModels (s : MemStorage)
    (payload : Option (Except String (List Nat))) : List Nat :=
  match payload with
  | none => (getDetectionModels s).map fun m => m.id
  | some (Except.ok ids) => ids
  | some (Except.error _) => [1, 2]

/-- The four seed models of `initDefaultModels`. -/
def defaultModels : List InsertDetectionModel :=
  [ { name := "FaceForensics++",
      description := "Specialized in facial manipulation detection",
      type := "both", isActive := true },
    { name := "DeepFake Detection Challenge",
      description := "Facebook's DFDC model for video analysis",
      type := "video", isActive := true },
    { name := "CNN-LSTM",
      description := "Temporal inconsistency detection",
      type := "video", isActive := true },
    { name := "EfficientNet-B4",
      description := "High-accuracy image classification",
      type := "image", isActive := true } ]

/-- The freshly constructed `MemStorage` before seeding. -/
def emptyStorage : MemStorage :=
  { users := [], mediaUploads := [], detectionModels := [],
    analysisResults := [], currentUserId := 1, currentMediaId := 1,
    currentModelId := 1, currentAnalysisId := 1 }

/-- The `MemStorage` constructor result: empty maps seeded with the
four default detection models. -/
def initialStorage : MemStorage :=
  defaultModels.foldl (fun s m => (createDetectionModel s m).2) emptyStorage

/-- A default `AnalysisResponse` used only as the `Option.getD`
fallback in closed statements. -/
def emptyResponse : AnalysisResponse :=
  { mediaId := 0, filename := "", filetype := "", status := "",
    overallConfidence := 0, isDeepfake := false, detectionTime := 0,
    manipulationTypes := [], modelResults := [],
    metadata :=
      { fileInfo := { filename := "", filesize := 0, filetype := "",
                      duration := none, resolution := none }
        technicalAnalysis := defaultTechnicalAnalysis } }

/-- The step function of the spec's representative-result choice. -/
def specRepStep (acc : Option AnalysisResult) (r : AnalysisResult) : Option AnalysisResult :=
  match acc with
  | none => some r
  | some b =>
    if r.analyzedAt < b.analyzedAt ∨ (r.analyzedAt = b.analyzedAt ∧ r.modelId < b.modelId)
    then some r else some b

/-- Modelled from the spec: "order all results by
(analyzedAt ascending, modelId ascending) and take the first". No such
ordering exists in `src/`; this definition states the spec's rule so
the code's representative-result choice can be compared against it. -/
def specRepresentative (results : List AnalysisResult) : Option AnalysisResult :=
  results.foldl specRepStep none

/-- The spec's (analyzedAt, modelId) lexicographic order on results. -/
def lexLE (a b : AnalysisResult) : Prop :=
  a.analyzedAt < b.analyzedAt ∨ (a.analyzedAt = b.analyzedAt ∧ a.modelId ≤ b.modelId)

instance : DecidableRel lexLE := fun a b =>
  inferInstanceAs (Decidable (a.analyzedAt < b.analyzedAt ∨
    (a.analyzedAt = b.analyzedAt ∧ a.modelId ≤ b.modelId)))

/-- A minimal well-formed `resultDetails` payload for concrete stores. -/
def simpleDetails : ResultDetails :=
  { anomalies := some [], manipulationTypes := some [], detailsData := some [],
    metadata := some { duration := none, resolution := some "1920x1080" },
    technicalAnalysis := some defaultTechnicalAnalysis }

/-- Concrete store for the status-transition counterexample: one job,
already `"completed"`. -/
def c1Job : MediaUpload :=
  { id := 1, filename := "photo.jpg", filesize := 2048,
    filetype := "image/jpeg", userId := none, uploadedAt := 10,
    status := "completed" }

def c1Store : MemStorage :=
  { emptyStorage with mediaUploads := [(1, c1Job)], currentMediaId := 2 }

/-- Concrete store for the status-transition witness: one job in the
terminal `"failed"` state. -/
def c1WitnessJob : MediaUpload :=
  { id := 2, filename := "clip.mp4", filesize := 4096,
    filetype := "video/mp4", userId := none, uploadedAt := 20,
    status := "failed" }

def c1WitnessStore : MemStorage :=
  { emptyStorage with mediaUploads := [(2, c1WitnessJob)], currentMediaId := 3 }

/-- Concrete store for the dispatch-failure scenario: a pending video
job and three compatible registered models. -/
def c2Job : MediaUpload :=
  { id := 1, filename := "clip.mp4", filesize := 1000,
    filetype := "video/mp4", userId := none, uploadedAt := 40,
    status := "pending" }

def c2ModelA : DetectionModel :=
  { id := 1, name := "Model A", description := "video model",
    type := "video", isActive := true }

def c2ModelB : DetectionModel :=
  { id := 2, name := "Model B", description := "video model",
    type := "video", isActive := true }

def c2ModelC : DetectionModel :=
  { id := 3, name := "Model C", description := "generic model",
    type := "both", isActive := true }

def c2Store : MemStorage :=
  { users := [], mediaUploads := [(1, c2Job)],
    detectionModels := [(1, c2ModelA), (2, c2ModelB), (3, c2ModelC)],
    analysisResults := [], currentUserId := 1, currentMediaId := 2,
    currentModelId := 4, currentAnalysisId := 1 }

/-- A producer that succeeds for every model except model 2, for which
it throws. -/
def c2Producer : DetectionModel → Except String (Int × ResultDetails) :=
  fun m => if m.id = 2 then Except.error "model producer failure"
           else Except.ok (80, simpleDetails)

/-- Concrete store for the aggregation example: one job with two
results scoring 92 and 86. -/
def c3Job : MediaUpload :=
  { id := 1, filename := "clip.mp4", filesize := 500000,
    filetype := "video/mp4", userId := none, uploadedAt := 50,
    status := "completed" }

def c3ResultA : AnalysisResult :=
  { id := 1, mediaId := 1, modelId := 1, confidenceScore := 92,
    resultDetails := simpleDetails, analyzedAt := 100 }

def c3ResultB : AnalysisResult :=
  { id := 2, mediaId := 1, modelId := 3, confidenceScore := 86,
    resultDetails := simpleDetails, analyzedAt := 105 }

def c3Store : MemStorage :=
  { users := [], mediaUploads := [(1, c3Job)], detectionModels := [],
    analysisResults := [(1, c3ResultA), (2, c3ResultB)],
    currentUserId := 1, currentMediaId := 2, currentModelId := 1,
    currentAnalysisId := 3 }

/-- Concrete store for the manipulation-type dedup counterexample: two
results whose candidate lists both contain the value pair
("Face Swap", 95), as distinct stored objects. -/
def c4DetailsA : ResultDetails :=
  { anomalies := some [],
    manipulationTypes := some
      [ { oid := 10, type := "Face Swap", confidence := 95 },
        { oid := 11, type := "Voice Synthesis", confidence := 56 } ],
    detailsData := some [], metadata := none,
    technicalAnalysis := some defaultTechnicalAnalysis }

def c4DetailsB : ResultDetails :=
  { anomalies := some [],
    manipulationTypes := some
      [ { oid := 20, type := "Face Swap", confidence := 95 } ],
    detailsData := some [], metadata := none,
    technicalAnalysis := some defaultTechnicalAnalysis }

def c4Job : MediaUpload :=
  { id := 1, filename := "face.png", filesize := 4000,
    filetype := "image/png", userId := none, uploadedAt := 30,
    status := "completed" }

def c4Store : MemStorage :=
  { users := [], mediaUploads := [(1, c4Job)], detectionModels := [],
    analysisResults :=
      [ (1, { id := 1, mediaId := 1, modelId := 1, confidenceScore := 80,
              resultDetails := c4DetailsA, analyzedAt := 60 }),
        (2, { id := 2, mediaId := 1, modelId := 2, confidenceScore := 70,
              resultDetails := c4DetailsB, analyzedAt := 61 }) ],
    currentUserId := 1, currentMediaId := 2, currentModelId := 1,
    currentAnalysisId := 3 }

/-- Concrete store for the representative-result counterexample: the
result of model 2 was inserted first, the result of model 1 second,
both with the same `analyzedAt`, and with different technical
analyses. -/
def c5TechA : TechnicalAnalysis :=
  { defaultTechnicalAnalysis with encodingFormat := "JPEG" }

def c5TechB : TechnicalAnalysis :=
  { defaultTechnicalAnalysis with encodingFormat := "H.264" }

def c5DetailsA : ResultDetails :=
  { anomalies := some [], manipulationTypes := some [], detailsData := some [],
    metadata := some { duration := some "00:42", resolution := some "1280x720" },
    technicalAnalysis := some c5TechA }

def c5DetailsB : ResultDetails :=
  { anomalies := some [], manipulationTypes := some [], detailsData := some [],
    metadata := some { duration := some "00:10", resolution := some "640x480" },
    technicalAnalysis := some c5TechB }

def c5Job : MediaUpload :=
  { id := 1, filename := "clip.mov", filesize := 777,
    filetype := "video/quicktime", userId := none, uploadedAt := 70,
    status := "completed" }

def c5ResultA : AnalysisResult :=
  { id := 1, mediaId := 1, modelId := 2, confidenceScore := 90,
    resultDetails := c5DetailsA, analyzedAt := 100 }

def c5ResultB : AnalysisResult :=
  { id := 2, mediaId := 1, modelId := 1, confidenceScore := 70,
    resultDetails := c5DetailsB, analyzedAt := 100 }

def c5Store : MemStorage :=
  { users := [], mediaUploads := [(1, c5Job)], detectionModels := [],
    analysisResults := [(1, c5ResultA), (2, c5ResultB)],
    currentUserId := 1, currentMediaId := 2, currentModelId := 1,
    currentAnalysisId := 3 }

/-- Concrete orderly store for the representative-result witness: the
same two results inserted in (analyzedAt, modelId) order. -/
def c5WResultA : AnalysisResult :=
  { id := 1, mediaId := 1, modelId := 1, confidenceScore := 70,
    resultDetails := c5DetailsB, analyzedAt := 100 }

def c5WResultB : AnalysisResult :=
  { id := 2, mediaId := 1, modelId := 2, confidenceScore := 90,
    resultDetails := c5DetailsA, analyzedAt := 100 }

def c5WitnessStore : MemStorage :=
  { users := [], mediaUploads := [(1, c5Job)], detectionModels := [],
    analysisResults := [(1, c5WResultA), (2, c5WResultB)],
    currentUserId := 1, currentMediaId := 2, currentModelId := 1,
    currentAnalysisId := 3 }

/-- Concrete store for the duplicate-result counterexample. -/
def c8Job : MediaUpload :=
  { id := 1, filename := "a.png", filesize := 100,
    filetype := "image/png", userId := none, uploadedAt := 5,
    status := "processing" }

def c8Store : MemStorage :=
  { emptyStorage with mediaUploads := [(1, c8Job)], currentMediaId := 2 }

/-- Concrete store for the insertion witness: one result present. -/
def c8WitnessStore : MemStorage :=
  { users := [], mediaUploads := [(1, c8Job)], detectionModels := [],
    analysisResults :=
      [ (1, { id := 1, mediaId := 1, modelId := 9, confidenceScore := 61,
              resultDetails := simpleDetails, analyzedAt := 8 }) ],
    currentUserId := 1, currentMediaId := 2, currentModelId := 1,
    currentAnalysisId := 2 }

/-- Concrete store for the frame-condition witness: two jobs, a model
and a result. -/
def c10JobA : MediaUpload :=
  { id := 1, filename := "a.jpg", filesize := 10,
    filetype := "image/jpeg", userId := some 7, uploadedAt := 1,
    status := "pending" }

def c10JobB : MediaUpload :=
  { id := 2, filename := "b.mp4", filesize := 20,
    filetype := "video/mp4", userId := none, uploadedAt := 2,
    status := "processing" }

def c10Model : DetectionModel :=
  { id := 1, name := "M", description := "d", type := "both", isActive := true }

def c10Result : AnalysisResult :=
  { id := 1, mediaId := 1, modelId := 1, confidenceScore := 50,
    resultDetails := simpleDetails, analyzedAt := 9 }

def c10Store : MemStorage :=
  { users := [], mediaUploads := [(1, c10JobA), (2, c10JobB)],
    detectionModels := [(1, c10Model)], analysisResults := [(1, c10Result)],
    currentUserId := 1, currentMediaId := 3, currentModelId := 2,
    currentAnalysisId := 2 }

lemma mapGet_mapSet_self {α : Type} (m : List (Nat × α)) (k : Nat) (v : α) :
    mapGet (mapSet m k v) k = some v := by
  induction m with
  | nil => simp [mapSet, mapGet]
  | cons p rest ih =>
    by_cases h : p.1 = k
    · simp [mapSet, h, mapGet]
    · simp [mapSet, h, mapGet, ih]

lemma mapGet_mapSet_ne {α : Type} (m : List (Nat × α)) (k j : Nat) (v : α)
    (hjk : j ≠ k) : mapGet (mapSet m k v) j = mapGet m j := by
  have hkj : k ≠ j := Ne.symm hjk
  induction m with
  | nil => simp [mapSet, mapGet, hkj]
  | cons p rest ih =>
    by_cases h : p.1 = k
    · subst h
      simp [mapSet, mapGet, hkj]
    · simp [mapSet, h, mapGet, ih]

lemma mapGet_none_of_lt {α : Type} (m : List (Nat × α)) (c : Nat)
    (h : ∀ p ∈ m, p.1 < c) : mapGet m c = none := by
  induction m with
  | nil => rfl
  | cons p rest ih =>
    have hp : p.1 < c := h p (by simp)
    have hne : p.1 ≠ c := Nat.ne_of_lt hp
    have := ih fun q hq => h q (by simp [hq])
    simp [mapGet, hne, this]

lemma mapSet_fresh {α : Type} (m : List (Nat × α)) (k : Nat) (v : α)
    (h : mapGet m k = none) : mapSet m k v = m ++ [(k, v)] := by
  induction m with
  | nil => rfl
  | cons p rest ih =>
    by_cases hp : p.1 = k
    · simp [mapGet, hp] at h
    · simp only [mapGet, hp, if_false, ite_false] at h
      simp [mapSet, hp, ih h]

lemma updateMediaStatus_found (s : MemStorage) (id : Nat) (st : String)
    (mu : MediaUpload) (h : getMediaUpload s id = some mu) :
    updateMediaStatus s id st =
      (some { mu with status := st },
       { s with mediaUploads := mapSet s.mediaUploads id { mu with status := st } }) := by
  unfold updateMediaStatus
  rw [h]

lemma updateMediaStatus_missing (s : MemStorage) (id : Nat) (st : String)
    (h : getMediaUpload s id = none) :
    updateMediaStatus s id st = (none, s) := by
  unfold updateMediaStatus
  rw [h]

lemma foldl_add_confidence (l : List AnalysisResult) (c : Int) :
    l.foldl (fun a r => a + r.confidenceScore) c
      = c + (l.map fun r => r.confidenceScore).sum := by
  induction l generalizing c with
  | nil => simp
  | cons r rest ih =>
    simp only [List.foldl_cons, List.map_cons, List.sum_cons, ih]
    ring

lemma mathRoundDiv_bounds (p q : Int) (hq : 0 < q) :
    2 * q * mathRoundDiv p q ≤ 2 * p + q ∧
      2 * p + q < 2 * q * (mathRoundDiv p q + 1) := by
  have h2q : (0 : Int) < 2 * q := by linarith
  unfold mathRoundDiv
  rw [Int.fdiv_eq_ediv _ (le_of_lt h2q)]
  have hdm := Int.ediv_add_emod (2 * p + q) (2 * q)
  have hm0 : 0 ≤ (2 * p + q) % (2 * q) := Int.emod_nonneg _ (ne_of_gt h2q)
  have hmlt : (2 * p + q) % (2 * q) < 2 * q := Int.emod_lt_of_pos _ h2q
  constructor <;> nlinarith [hdm, hm0, hmlt]

lemma dedupByOid_eq_self : ∀ (xs : List ManipEntry) (seen : List Nat),
    ((xs.map fun e => e.oid).Nodup) → (∀ e ∈ xs, e.oid ∉ seen) →
    dedupByOid xs seen = xs := by
  intro xs
  induction xs with
  | nil => intro seen _ _; rfl
  | cons x rest ih =>
    intro seen h1 h2
    have hx : x.oid ∉ seen := h2 x (by simp)
    rw [List.map_cons, List.nodup_cons] at h1
    rw [dedupByOid, if_neg hx]
    congr 1
    refine ih _ h1.2 ?_
    intro e he
    intro hmem
    rcases List.mem_cons.mp hmem with heq | hseen
    · exact h1.1 (heq ▸ List.mem_map_of_mem (fun e => e.oid) he)
    · exact h2 e (by simp [he]) hseen

lemma specRep_fold_keep (b : AnalysisResult) :
    ∀ (l : List AnalysisResult), (∀ r ∈ l, lexLE b r) →
      l.foldl specRepStep (some b) = some b := by
  intro l
  induction l with
  | nil => intro _; rfl
  | cons r rest ih =>
    intro h
    have hbr := h r (by simp)
    have hcond : ¬ (r.analyzedAt < b.analyzedAt ∨
        (r.analyzedAt = b.analyzedAt ∧ r.modelId < b.modelId)) := by
      unfold lexLE at hbr
      omega
    simp only [List.foldl_cons, specRepStep, if_neg hcond]
    exact ih fun q hq => h q (by simp [hq])

lemma specRepresentative_of_pairwise (first : AnalysisResult)
    (rest : List AnalysisResult) (h : (first :: rest).Pairwise lexLE) :
    specRepresentative (first :: rest) = some first := by
  have hhead : ∀ r ∈ rest, lexLE first r := (List.pairwise_cons.mp h).1
  unfold specRepresentative
  simp only [List.foldl_cons, specRepStep]
  exact specRep_fold_keep first rest hhead

lemma createAnalysisResult_state (s : MemStorage) (r : InsertAnalysisResult)
    (now : Nat) (h : ∀ p ∈ s.analysisResults, p.1 < s.currentAnalysisId) :
    createAnalysisResult s r now =
      ({ id := s.currentAnalysisId, mediaId := r.mediaId, modelId := r.modelId,
         confidenceScore := r.confidenceScore, resultDetails := r.resultDetails,
         analyzedAt := now },
       { s with
          analysisResults := s.analysisResults ++
            [(s.currentAnalysisId,
              { id := s.currentAnalysisId, mediaId := r.mediaId,
                modelId := r.modelId, confidenceScore := r.confidenceScore,
                resultDetails := r.resultDetails, analyzedAt := now })],
          currentAnalysisId := s.currentAnalysisId + 1 }) := by
  simp only [createAnalysisResult]
  rw [mapSet_fresh _ _ _ (mapGet_none_of_lt _ _ h)]

lemma getResults_append_matching (m : List (Nat × AnalysisResult)) (k : Nat)
    (ar : AnalysisResult) (mediaId : Nat) (har : ar.mediaId = mediaId) :
    (mapValues (m ++ [(k, ar)])).filter (fun r => r.mediaId == mediaId)
      = (mapValues m).filter (fun r => r.mediaId == mediaId) ++ [ar] := by
  simp [mapValues, List.filter_append, har]

lemma getCompleteAnalysis_inv (s : MemStorage) (mediaId : Nat)
    (resp : AnalysisResponse) (h : getCompleteAnalysis s mediaId = some resp) :
    ∃ mu first rest, getMediaUpload s mediaId = some mu ∧
      getAnalysisResultsByMediaId s mediaId = first :: rest ∧
      resp = buildResponse s mediaId mu first (first :: rest) := by
  unfold getCompleteAnalysis at h
  cases hmu : getMediaUpload s mediaId with
  | none => rw [hmu] at h; exact absurd h (by simp)
  | some mu =>
    rw [hmu] at h
    cases hres : getAnalysisResultsByMediaId s mediaId with
    | nil => rw [hres] at h; exact absurd h (by simp)
    | cons first rest =>
      rw [hres] at h
      simp only [Option.some.injEq] at h
      exact ⟨mu, first, rest, rfl, rfl, h.symm⟩

/-- C1 counterexample: the Job Store does not make `completed` terminal.
In a store whose job 1 is `"completed"`, calling
`updateMediaStatus 1 "pending"` moves the job back to `"pending"`,
contradicting "once a job's status is completed or failed no later
setStatus call changes it again". -/
theorem updateMediaStatus_reverts_completed_job :
    (getMediaUpload c1Store 1).map (fun mu => mu.status) = some "completed" ∧
      (getMediaUpload (updateMediaStatus c1Store 1 "pending").2 1).map
          (fun mu => mu.status) = some "pending" := by
  constructor <;> rfl

/-- C1 (amended): `updateMediaStatus` enforces no transition discipline
at all: whenever the addressed job exists it unconditionally overwrites
the status with the given value — backward and duplicate transitions
included — and returns the updated job. Forward-only ordering is not a
property of the store operation. -/
theorem updateMediaStatus_unconditional (s : MemStorage) (id : Nat) (st : String)
    (mu : MediaUpload) (h : getMediaUpload s id = some mu) :
    (updateMediaStatus s id st).1 = some { mu with status := st } ∧
      (getMediaUpload (updateMediaStatus s id st).2 id).map (fun j => j.status)
        = some st := by
  rw [updateMediaStatus_found s id st mu h]
  refine ⟨rfl, ?_⟩
  show (mapGet (mapSet s.mediaUploads id { mu with status := st }) id).map
      (fun j => j.status) = some st
  rw [mapGet_mapSet_self]
  rfl

/-- Witness for the amended C1 at a concrete store: a `"failed"` job is
overwritten to `"processing"`. -/
theorem updateMediaStatus_unconditional_witness :
    (updateMediaStatus c1WitnessStore 2 "processing").1
        = some { c1WitnessJob with status := "processing" } ∧
      (getMediaUpload (updateMediaStatus c1WitnessStore 2 "processing").2 2).map
          (fun j => j.status) = some "processing" :=
  updateMediaStatus_unconditional c1WitnessStore 2 "processing" c1WitnessJob rfl

/-- C6: `getCompleteAnalysis` fails with NotFound exactly when the job
does not exist or has zero stored analysis results; whenever the job
exists and has at least one result it returns a report. -/
theorem getCompleteAnalysis_none_iff (s : MemStorage) (mediaId : Nat) :
    getCompleteAnalysis s mediaId = none ↔
      (getMediaUpload s mediaId = none ∨
        getAnalysisResultsByMediaId s mediaId = []) := by
  unfold getCompleteAnalysis
  cases hmu : getMediaUpload s mediaId with
  | none => simp
  | some mu =>
    cases hres : getAnalysisResultsByMediaId s mediaId with
    | nil => simp
    | cons first rest => simp

/-- C7: with a non-empty explicit id list the selected models are
exactly the registry models whose id is in the list and whose
media-type compatibility matches, with `isActive` not consulted; with
no explicit list the selected models are exactly the active compatible
ones. -/
theorem selectModelsToUse_mem_iff (avail : List DetectionModel) (sel : List Nat)
    (isVideo : Bool) (m : DetectionModel) :
    m ∈ selectModelsToUse avail sel isVideo ↔
      m ∈ avail ∧
        ((sel ≠ [] ∧ m.id ∈ sel ∧ modelCompat m isVideo = true) ∨
         (sel = [] ∧ m.isActive = true ∧ modelCompat m isVideo = true)) := by
  by_cases hsel : sel = []
  · subst hsel
    simp [selectModelsToUse, List.mem_filter]
  · have hlen : 0 < sel.length := List.length_pos.mpr hsel
    simp [selectModelsToUse, hlen, List.mem_filter, hsel]

/-- C9 counterexample: after a malformed `selectedModels` payload the
pipeline is handed the hardcoded model-id list `[1, 2]`, which is an
explicit non-empty selection rather than "no explicit selection". -/
theorem extractSelectedModels_hardcoded_fallback :
    extractSelectedModels initialStorage (some (Except.error "not json")) = [1, 2] ∧
      ([1, 2] : List Nat) ≠ [] := by
  constructor
  · rfl
  · simp

/-- C9 (amended): a malformed explicit-model-id payload does not crash
the pipeline (the extraction is a total function), but the Selector
then receives the hardcoded fallback list `[1, 2]` — for every store
and every parse error — instead of a valid id set or no selection. -/
theorem extractSelectedModels_malformed (s : MemStorage) (e : String) :
    extractSelectedModels s (some (Except.error e)) = [1, 2] := rfl

/-- C10: for an existing job `updateMediaStatus` changes only the
status field of the addressed job (id, filename, filesize, filetype,
userId and uploadedAt are preserved in the returned copy), leaves every
other job and the model, result and user tables and all id counters
unchanged; for a missing id it returns `undefined` and leaves the whole
store unchanged. -/
theorem updateMediaStatus_frame (s : MemStorage) (id : Nat) (st : String) :
    (∀ mu, getMediaUpload s id = some mu →
        (updateMediaStatus s id st).1 = some { mu with status := st } ∧
        getMediaUpload (updateMediaStatus s id st).2 id = some { mu with status := st } ∧
        (∀ j, j ≠ id →
          mapGet (updateMediaStatus s id st).2.mediaUploads j = mapGet s.mediaUploads j) ∧
        (updateMediaStatus s id st).2.users = s.users ∧
        (updateMediaStatus s id st).2.detectionModels = s.detectionModels ∧
        (updateMediaStatus s id st).2.analysisResults = s.analysisResults ∧
        (updateMediaStatus s id st).2.currentUserId = s.currentUserId ∧
        (updateMediaStatus s id st).2.currentMediaId = s.currentMediaId ∧
        (updateMediaStatus s id st).2.currentModelId = s.currentModelId ∧
        (updateMediaStatus s id st).2.currentAnalysisId = s.currentAnalysisId) ∧
      (getMediaUpload s id = none → updateMediaStatus s id st = (none, s)) := by
  constructor
  · intro mu h
    rw [updateMediaStatus_found s id st mu h]
    refine ⟨rfl, ?_, ?_, rfl, rfl, rfl, rfl, rfl, rfl, rfl⟩
    · show mapGet (mapSet s.mediaUploads id { mu with status := st }) id
        = some { mu with status := st }
      exact mapGet_mapSet_self _ _ _
    · intro j hj
      exact mapGet_mapSet_ne _ _ _ _ hj
  · intro h
    exact updateMediaStatus_missing s id st h

/-- Witness for C10 at a concrete two-job store: job 1 is updated, job
2 and the model and result tables are untouched. -/
theorem updateMediaStatus_frame_witness :
    (updateMediaStatus c10Store 1 "processing").1
        = some { c10JobA with status := "processing" } ∧
      getMediaUpload (updateMediaStatus c10Store 1 "processing").2 1
        = some { c10JobA with status := "processing" } ∧
      mapGet (updateMediaStatus c10Store 1 "processing").2.mediaUploads 2
        = mapGet c10Store.mediaUploads 2 ∧
      (updateMediaStatus c10Store 1 "processing").2.detectionModels
        = c10Store.detectionModels ∧
      (updateMediaStatus c10Store 1 "processing").2.analysisResults
        = c10Store.analysisResults := by
  obtain ⟨h1, h2, h3, _, h5, h6, _⟩ :=
    (updateMediaStatus_frame c10Store 1 "processing").1 c10JobA rfl
  exact ⟨h1, h2, h3 2 (by decide), h5, h6⟩

/-- C3: the report's `overallConfidence` is the arithmetic mean of the
job's stored confidence scores rounded to the nearest integer with
halves rounded up — stated as the characterising inequalities
`n * oc ≤ sum + n/2 < n * (oc + 1)` (scaled by 2) — and `isDeepfake`
holds exactly when `overallConfidence > 60`. -/
theorem overallConfidence_round_half_up (s : MemStorage) (mediaId : Nat)
    (resp : AnalysisResponse) (h : getCompleteAnalysis s mediaId = some resp) :
    2 * ((getAnalysisResultsByMediaId s mediaId).length : Int) * resp.overallConfidence
        ≤ 2 * ((getAnalysisResultsByMediaId s mediaId).map fun r => r.confidenceScore).sum
            + ((getAnalysisResultsByMediaId s mediaId).length : Int) ∧
      2 * ((getAnalysisResultsByMediaId s mediaId).map fun r => r.confidenceScore).sum
            + ((getAnalysisResultsByMediaId s mediaId).length : Int)
        < 2 * ((getAnalysisResultsByMediaId s mediaId).length : Int)
            * (resp.overallConfidence + 1) ∧
      (resp.isDeepfake = true ↔ resp.overallConfidence > 60) := by
  obtain ⟨mu, first, rest, hmu, hres, hresp⟩ := getCompleteAnalysis_inv s mediaId resp h
  subst hresp
  rw [hres]
  simp only [buildResponse]
  have hsum : jobResultsSum (first :: rest)
      = ((first :: rest).map fun r => r.confidenceScore).sum := by
    unfold jobResultsSum
    rw [foldl_add_confidence]
    ring
  have hq : (0 : Int) < ((first :: rest).length : Int) := by
    exact_mod_cast Nat.succ_pos rest.length
  have hb := mathRoundDiv_bounds (jobResultsSum (first :: rest))
    ((first :: rest).length : Int) hq
  rw [hsum] at hb
  unfold overallConfidenceOf
  rw [hsum]
  exact ⟨hb.1, hb.2, by simp⟩

/-- Witness for C3: in the concrete store whose job 1 has two results
scoring 92 and 86, the characterisation holds, `overallConfidence` is
89 and `isDeepfake` is true. -/
theorem overallConfidence_round_half_up_witness :
    (2 * ((getAnalysisResultsByMediaId c3Store 1).length : Int)
          * ((getCompleteAnalysis c3Store 1).getD emptyResponse).overallConfidence
        ≤ 2 * ((getAnalysisResultsByMediaId c3Store 1).map fun r => r.confidenceScore).sum
            + ((getAnalysisResultsByMediaId c3Store 1).length : Int) ∧
      2 * ((getAnalysisResultsByMediaId c3Store 1).map fun r => r.confidenceScore).sum
            + ((getAnalysisResultsByMediaId c3Store 1).length : Int)
        < 2 * ((getAnalysisResultsByMediaId c3Store 1).length : Int)
            * (((getCompleteAnalysis c3Store 1).getD emptyResponse).overallConfidence + 1) ∧
      (((getCompleteAnalysis c3Store 1).getD emptyResponse).isDeepfake = true ↔
        ((getCompleteAnalysis c3Store 1).getD emptyResponse).overallConfidence > 60)) ∧
      ((getCompleteAnalysis c3Store 1).getD emptyResponse).overallConfidence = 89 ∧
      ((getCompleteAnalysis c3Store 1).getD emptyResponse).isDeepfake = true :=
  ⟨overallConfidence_round_half_up c3Store 1 _ rfl, by decide, by decide⟩

/-- C4 counterexample: in a store where two different results both
contain the manipulation-candidate value ("Face Swap", 95) — as two
distinct stored objects — the report keeps both entries: identical
`(type, confidence)` pairs do not collapse to one entry. -/
theorem manipulationTypes_value_duplicates_survive :
    ((getCompleteAnalysis c4Store 1).getD emptyResponse).manipulationTypes.map
        (fun e => (e.type, e.confidence))
      = [("Face Swap", (95 : Int)), ("Face Swap", 95), ("Voice Synthesis", 56)] := by
  decide

/-- C4 (amended): the report's `manipulationTypes` is the concatenation
of every result's `manipulationCandidates` sorted descending by
confidence; the `Set` used for deduplication compares object identity,
so when all stored entries are distinct objects (which the orchestrator
guarantees) nothing is removed — in particular entries with identical
`(type, confidence)` values all survive, as do same-type entries with
different confidences. -/
theorem manipulationTypes_identity_dedup (s : MemStorage) (mediaId : Nat)
    (resp : AnalysisResponse) (h : getCompleteAnalysis s mediaId = some resp)
    (hids : ((jobManipCandidates (getAnalysisResultsByMediaId s mediaId)).map
        fun e => e.oid).Nodup) :
    resp.manipulationTypes.Perm
        (jobManipCandidates (getAnalysisResultsByMediaId s mediaId)) ∧
      resp.manipulationTypes.Pairwise confDescRel := by
  obtain ⟨mu, first, rest, hmu, hres, hresp⟩ := getCompleteAnalysis_inv s mediaId resp h
  subst hresp
  rw [hres] at hids ⊢
  simp only [buildResponse]
  unfold manipulationTypesOf
  rw [dedupByOid_eq_self _ _ hids (fun e _ => List.not_mem_nil _)]
  exact ⟨List.perm_insertionSort confDescRel _, List.sorted_insertionSort confDescRel _⟩

/-- Witness for the amended C4 at the concrete duplicate-pair store. -/
theorem manipulationTypes_identity_dedup_witness :
    ((getCompleteAnalysis c4Store 1).getD emptyResponse).manipulationTypes.Perm
        (jobManipCandidates (getAnalysisResultsByMediaId c4Store 1)) ∧
      ((getCompleteAnalysis c4Store 1).getD emptyResponse).manipulationTypes.Pairwise
        confDescRel :=
  manipulationTypes_identity_dedup c4Store 1 _ rfl (by decide)

/-- C5 counterexample: with two results of equal `analyzedAt` inserted
in descending `modelId` order, the spec's (analyzedAt, modelId) rule
picks the model-1 result, but the report's `technicalAnalysis` comes
from the first-inserted model-2 result and differs from the model-1
result's technical analysis. -/
theorem representative_not_lex_ordered :
    specRepresentative (getAnalysisResultsByMediaId c5Store 1) = some c5ResultB ∧
      ((getCompleteAnalysis c5Store 1).getD emptyResponse).metadata.technicalAnalysis
        = c5TechA ∧
      c5TechA ≠ c5ResultB.resultDetails.technicalAnalysis.getD defaultTechnicalAnalysis := by
  refine ⟨?_, ?_, ?_⟩ <;> decide

/-- C5 (amended): the representative result is `analysisResults[0]`,
the job's first result in store-insertion order; when the stored order
happens to agree with the spec's (analyzedAt ascending, modelId
ascending) order — as it does for the sequential orchestrator — that
first result is exactly the spec's choice and supplies
`detectionTime`, `technicalAnalysis`, `duration` and `resolution`. -/
theorem representative_is_first_inserted (s : MemStorage) (mediaId : Nat)
    (resp : AnalysisResponse) (first : AnalysisResult) (rest : List AnalysisResult)
    (h : getCompleteAnalysis s mediaId = some resp)
    (hres : getAnalysisResultsByMediaId s mediaId = first :: rest)
    (hord : (first :: rest).Pairwise lexLE) :
    specRepresentative (first :: rest) = some first ∧
      resp.detectionTime = first.analyzedAt ∧
      resp.metadata.technicalAnalysis
        = first.resultDetails.technicalAnalysis.getD defaultTechnicalAnalysis ∧
      resp.metadata.fileInfo.duration
        = jsOrUndefined (first.resultDetails.metadata.bind fun m => m.duration) ∧
      resp.metadata.fileInfo.resolution
        = jsOrUndefined (first.resultDetails.metadata.bind fun m => m.resolution) := by
  obtain ⟨mu, first2, rest2, hmu, hres2, hresp⟩ := getCompleteAnalysis_inv s mediaId resp h
  rw [hres] at hres2
  injection hres2 with e1 e2
  subst e1
  subst e2
  subst hresp
  simp only [buildResponse]
  refine ⟨specRepresentative_of_pairwise first rest hord, ?_, ?_, ?_, ?_⟩ <;> trivial

/-- Witness for the amended C5 at the orderly store. -/
theorem representative_is_first_inserted_witness :
    specRepresentative [c5WResultA, c5WResultB] = some c5WResultA ∧
      ((getCompleteAnalysis c5WitnessStore 1).getD emptyResponse).detectionTime
        = c5WResultA.analyzedAt ∧
      ((getCompleteAnalysis c5WitnessStore 1).getD emptyResponse).metadata.technicalAnalysis
        = c5WResultA.resultDetails.technicalAnalysis.getD defaultTechnicalAnalysis ∧
      ((getCompleteAnalysis c5WitnessStore 1).getD emptyResponse).metadata.fileInfo.duration
        = jsOrUndefined (c5WResultA.resultDetails.metadata.bind fun m => m.duration) ∧
      ((getCompleteAnalysis c5WitnessStore 1).getD emptyResponse).metadata.fileInfo.resolution
        = jsOrUndefined (c5WResultA.resultDetails.metadata.bind fun m => m.resolution) :=
  representative_is_first_inserted c5WitnessStore 1 _ c5WResultA [c5WResultB]
    rfl rfl (by decide)

lemma mapGet_append_ne {α : Type} (l : List (Nat × α)) (c k : Nat) (v : α)
    (h : c ≠ k) : mapGet (l ++ [(c, v)]) k = mapGet l k := by
  induction l with
  | nil => simp [mapGet, h]
  | cons p rest ih =>
    by_cases hp : p.1 = k <;> simp [mapGet, hp, ih]

/-- C8 counterexample: two `createAnalysisResult` calls for the same
(jobId, modelId) pair both succeed, so the store ends with two results
for that pair — the store performs no uniqueness check. -/
theorem createAnalysisResult_accepts_duplicates :
    ((getAnalysisResultsByMediaId
        (createAnalysisResult
          (createAnalysisResult c8Store
            { mediaId := 1, modelId := 5, confidenceScore := 80,
              resultDetails := simpleDetails } 100).2
          { mediaId := 1, modelId := 5, confidenceScore := 75,
            resultDetails := simpleDetails } 101).2 1).filter
        (fun r => r.modelId == 5)).length = 2 := by
  decide

/-- C8 (amended): `createAnalysisResult` never rejects an insertion:
under the store's fresh-counter invariant it always appends a new
result under the next id — so results for an already-present
(jobId, modelId) pair accumulate — while every previously stored result
is left exactly as it was (stored results are never mutated). -/
theorem createAnalysisResult_appends (s : MemStorage) (r : InsertAnalysisResult)
    (now : Nat) (hfresh : ∀ p ∈ s.analysisResults, p.1 < s.currentAnalysisId) :
    (createAnalysisResult s r now).2.analysisResults
        = s.analysisResults ++
          [(s.currentAnalysisId, (createAnalysisResult s r now).1)] ∧
      (createAnalysisResult s r now).1 =
        { id := s.currentAnalysisId, mediaId := r.mediaId, modelId := r.modelId,
          confidenceScore := r.confidenceScore, resultDetails := r.resultDetails,
          analyzedAt := now } ∧
      (∀ k, k < s.currentAnalysisId →
        mapGet (createAnalysisResult s r now).2.analysisResults k
          = mapGet s.analysisResults k) := by
  rw [createAnalysisResult_state s r now hfresh]
  refine ⟨rfl, rfl, ?_⟩
  intro k hk
  exact mapGet_append_ne _ _ _ _ (Nat.ne_of_gt hk)

/-- Witness for the amended C8 at a concrete store holding one result:
the insertion appends under id 2 and the result stored under id 1 is
untouched. -/
theorem createAnalysisResult_appends_witness :
    (createAnalysisResult c8WitnessStore
        { mediaId := 1, modelId := 5, confidenceScore := 80,
          resultDetails := simpleDetails } 100).2.analysisResults
      = c8WitnessStore.analysisResults ++
        [(c8WitnessStore.currentAnalysisId,
          (createAnalysisResult c8WitnessStore
            { mediaId := 1, modelId := 5, confidenceScore := 80,
              resultDetails := simpleDetails } 100).1)] ∧
      mapGet (createAnalysisResult c8WitnessStore
          { mediaId := 1, modelId := 5, confidenceScore := 80,
            resultDetails := simpleDetails } 100).2.analysisResults 1
        = mapGet c8WitnessStore.analysisResults 1 := by
  obtain ⟨h1, _, h3⟩ := createAnalysisResult_appends c8WitnessStore
    { mediaId := 1, modelId := 5, confidenceScore := 80,
      resultDetails := simpleDetails } 100 (by decide)
  exact ⟨h1, h3 1 (by decide)⟩

lemma createAnalysisResult_state_fields (s : MemStorage) (mid mdl : Nat)
    (score : Int) (details : ResultDetails) (now : Nat)
    (h : ∀ p ∈ s.analysisResults, p.1 < s.currentAnalysisId) :
    createAnalysisResult s
        { mediaId := mid, modelId := mdl, confidenceScore := score,
          resultDetails := details } now =
      ({ id := s.currentAnalysisId, mediaId := mid, modelId := mdl,
         confidenceScore := score, resultDetails := details, analyzedAt := now },
       { s with
          analysisResults := s.analysisResults ++
            [(s.currentAnalysisId,
              { id := s.currentAnalysisId, mediaId := mid, modelId := mdl,
                confidenceScore := score, resultDetails := details,
                analyzedAt := now })],
          currentAnalysisId := s.currentAnalysisId + 1 }) :=
  createAnalysisResult_state s _ now h

lemma runModels_stops_on_error (mediaId : Nat)
    (producer : DetectionModel → Except String (Int × ResultDetails)) (now : Nat)
    (bad : DetectionModel) (post : List DetectionModel) (e : String)
    (hbad : producer bad = Except.error e) :
    ∀ (pre : List DetectionModel) (s : MemStorage),
      (∀ m ∈ pre, ∃ v, producer m = Except.ok v) →
      (∀ p ∈ s.analysisResults, p.1 < s.currentAnalysisId) →
      (runModels s mediaId (pre ++ bad :: post) producer now).2 = some e ∧
        (getAnalysisResultsByMediaId
            (runModels s mediaId (pre ++ bad :: post) producer now).1 mediaId).length
          = (getAnalysisResultsByMediaId s mediaId).length + pre.length ∧
        (runModels s mediaId (pre ++ bad :: post) producer now).1.mediaUploads
          = s.mediaUploads := by
  intro pre
  induction pre with
  | nil =>
    intro s hok hfresh
    simp only [List.nil_append, runModels, hbad]
    refine ⟨?_, ?_, ?_⟩ <;> simp
  | cons m pre ih =>
    intro s hok hfresh
    obtain ⟨v, hv⟩ := hok m (by simp)
    have hstate := createAnalysisResult_state_fields s
      mediaId m.id v.1 v.2 now hfresh
    simp only [List.cons_append, runModels, hv, hstate]
    have hfresh2 : ∀ p ∈ s.analysisResults ++
        [(s.currentAnalysisId,
          ({ id := s.currentAnalysisId, mediaId := mediaId, modelId := m.id,
             confidenceScore := v.1, resultDetails := v.2,
             analyzedAt := now } : AnalysisResult))],
        p.1 < s.currentAnalysisId + 1 := by
      intro p hp
      rcases List.mem_append.mp hp with hp | hp
      · exact Nat.lt_succ_of_lt (hfresh p hp)
      · rw [List.mem_singleton] at hp
        subst hp
        exact Nat.lt_succ_self _
    obtain ⟨he, hlen, hmus⟩ := ih
      { s with
        analysisResults := s.analysisResults ++
          [(s.currentAnalysisId,
            { id := s.currentAnalysisId, mediaId := mediaId, modelId := m.id,
              confidenceScore := v.1, resultDetails := v.2, analyzedAt := now })],
        currentAnalysisId := s.currentAnalysisId + 1 }
      (fun q hq => hok q (by simp [hq])) hfresh2
    have hlen2 : (getAnalysisResultsByMediaId
        { s with
          analysisResults := s.analysisResults ++
            [(s.currentAnalysisId,
              { id := s.currentAnalysisId, mediaId := mediaId, modelId := m.id,
                confidenceScore := v.1, resultDetails := v.2, analyzedAt := now })],
          currentAnalysisId := s.currentAnalysisId + 1 } mediaId).length
        = (getAnalysisResultsByMediaId s mediaId).length + 1 := by
      have hfilter : getAnalysisResultsByMediaId
          { s with
            analysisResults := s.analysisResults ++
              [(s.currentAnalysisId,
                { id := s.currentAnalysisId, mediaId := mediaId, modelId := m.id,
                  confidenceScore := v.1, resultDetails := v.2, analyzedAt := now })],
            currentAnalysisId := s.currentAnalysisId + 1 } mediaId
          = getAnalysisResultsByMediaId s mediaId ++
            [{ id := s.currentAnalysisId, mediaId := mediaId, modelId := m.id,
               confidenceScore := v.1, resultDetails := v.2, analyzedAt := now }] := by
        unfold getAnalysisResultsByMediaId
        exact getResults_append_matching _ _ _ _ rfl
      rw [hfilter]
      simp
    simp only [List.append_eq] at he hlen hmus ⊢
    refine ⟨he, ?_, hmus⟩
    simp only [List.length_cons]
    omega

/-- C2 counterexample: dispatching job 1 with three selected models and
a producer that throws on the second leaves the job `"failed"` but one
persisted result in the store — not zero, so the all-or-nothing reading
is false. -/
theorem dispatch_failure_counterexample :
    (getMediaUpload (dispatchProcessMedia c2Store 1 [1, 2, 3] c2Producer 100) 1).map
        (fun mu => mu.status) = some "failed" ∧
      (getAnalysisResultsByMediaId
          (dispatchProcessMedia c2Store 1 [1, 2, 3] c2Producer 100) 1).length = 1 := by
  refine ⟨?_, ?_⟩ <;> decide

lemma updateMediaStatus_sets_status (s : MemStorage) (id : Nat) (st : String)
    (mu : MediaUpload) (h : getMediaUpload s id = some mu) :
    (getMediaUpload (updateMediaStatus s id st).2 id).map (fun j => j.status)
      = some st := by
  rw [updateMediaStatus_found s id st mu h]
  show (mapGet (mapSet s.mediaUploads id { mu with status := st }) id).map
      (fun j => j.status) = some st
  rw [mapGet_mapSet_self]
  rfl

lemma updateMediaStatus_analysisResults (s : MemStorage) (id : Nat) (st : String) :
    (updateMediaStatus s id st).2.analysisResults = s.analysisResults := by
  unfold updateMediaStatus
  cases h : getMediaUpload s id <;> rfl

/-- C2 (amended): if a producer invocation throws during dispatch the
job ends in status `"failed"` and no result at or after the failing
model is persisted — but every result persisted before the error stays
in the store (one per successfully produced model). There is no
rollback, so the all-or-nothing reading of the claim fails while its
fail-and-stop part holds. -/
theorem dispatch_failure_keeps_prior_results (s : MemStorage) (mediaId : Nat)
    (sel : List Nat) (producer : DetectionModel → Except String (Int × ResultDetails))
    (now : Nat) (mu : MediaUpload) (pre post : List DetectionModel)
    (bad : DetectionModel) (e : String)
    (hmu : getMediaUpload s mediaId = some mu)
    (hfresh : ∀ p ∈ s.analysisResults, p.1 < s.currentAnalysisId)
    (hsel : selectModelsToUse (getDetectionModels s) sel
        (strStartsWith mu.filetype "video/") = pre ++ bad :: post)
    (hok : ∀ m ∈ pre, ∃ v, producer m = Except.ok v)
    (hbad : producer bad = Except.error e) :
    (getMediaUpload (dispatchProcessMedia s mediaId sel producer now) mediaId).map
        (fun j => j.status) = some "failed" ∧
      (getAnalysisResultsByMediaId (dispatchProcessMedia s mediaId sel producer now)
          mediaId).length
        = (getAnalysisResultsByMediaId s mediaId).length + pre.length := by
  have hmu1 : getMediaUpload
      { s with mediaUploads :=
          mapSet s.mediaUploads mediaId { mu with status := "processing" } } mediaId
      = some { mu with status := "processing" } := by
    unfold getMediaUpload
    exact mapGet_mapSet_self _ _ _
  have hsel1 : selectModelsToUse
      (getDetectionModels
        { s with mediaUploads :=
            mapSet s.mediaUploads mediaId { mu with status := "processing" } }) sel
      (strStartsWith mu.filetype "video/") = pre ++ bad :: post := hsel
  obtain ⟨he, hlen, hmus⟩ := runModels_stops_on_error mediaId producer now bad post e
    hbad pre
    { s with mediaUploads :=
        mapSet s.mediaUploads mediaId { mu with status := "processing" } }
    hok hfresh
  have hpair : runModels
      { s with mediaUploads :=
          mapSet s.mediaUploads mediaId { mu with status := "processing" } }
      mediaId (pre ++ bad :: post) producer now
      = ((runModels
          { s with mediaUploads :=
              mapSet s.mediaUploads mediaId { mu with status := "processing" } }
          mediaId (pre ++ bad :: post) producer now).1, some e) := by
    rw [← he]
  have hproc : processMedia s mediaId sel producer now
      = ((runModels
          { s with mediaUploads :=
              mapSet s.mediaUploads mediaId { mu with status := "processing" } }
          mediaId (pre ++ bad :: post) producer now).1, some e) := by
    simp only [processMedia, updateMediaStatus_found s mediaId "processing" mu hmu,
      hmu1, hsel1]
    rw [hpair]
  have hdisp : dispatchProcessMedia s mediaId sel producer now
      = (updateMediaStatus
          (runModels
            { s with mediaUploads :=
                mapSet s.mediaUploads mediaId { mu with status := "processing" } }
            mediaId (pre ++ bad :: post) producer now).1
          mediaId "failed").2 := by
    simp only [dispatchProcessMedia, hproc]
  have hmuX1 : getMediaUpload
      (runModels
        { s with mediaUploads :=
            mapSet s.mediaUploads mediaId { mu with status := "processing" } }
        mediaId (pre ++ bad :: post) producer now).1 mediaId
      = some { mu with status := "processing" } := by
    unfold getMediaUpload
    rw [hmus]
    exact hmu1
  constructor
  · rw [hdisp]
    exact updateMediaStatus_sets_status _ mediaId "failed" _ hmuX1
  · rw [hdisp]
    have h1 : getAnalysisResultsByMediaId
        (updateMediaStatus
          (runModels
            { s with mediaUploads :=
                mapSet s.mediaUploads mediaId { mu with status := "processing" } }
            mediaId (pre ++ bad :: post) producer now).1
          mediaId "failed").2 mediaId
        = getAnalysisResultsByMediaId
          (runModels
            { s with mediaUploads :=
                mapSet s.mediaUploads mediaId { mu with status := "processing" } }
            mediaId (pre ++ bad :: post) producer now).1 mediaId := by
      unfold getAnalysisResultsByMediaId
      rw [updateMediaStatus_analysisResults]
    rw [h1, hlen]
    rfl

/-- Witness for the amended C2 at the concrete video-job store with
three selected models whose producer throws on the second: the job ends
`"failed"` with exactly one persisted result (for the model that
succeeded before the error). -/
theorem dispatch_failure_keeps_prior_results_witness :
    (getMediaUpload (dispatchProcessMedia c2Store 1 [1, 2, 3] c2Producer 100) 1).map
        (fun j => j.status) = some "failed" ∧
      (getAnalysisResultsByMediaId
          (dispatchProcessMedia c2Store 1 [1, 2, 3] c2Producer 100) 1).length
        = (getAnalysisResultsByMediaId c2Store 1).length + [c2ModelA].length :=
  dispatch_failure_keeps_prior_results c2Store 1 [1, 2, 3] c2Producer 100 c2Job
    [c2ModelA] [c2ModelC] c2ModelB "model producer failure" rfl (by decide)
    (by decide)
    (by
      intro m hm
      rw [List.mem_singleton] at hm
      subst hm
      exact ⟨(80, simpleDetails), rfl⟩)
    rfl
